import Mathlib

/-!
Verification of the obniz-rust session/multiplexing layer (`src/obniz.rs`).

The development shallowly embeds the core of `Obniz`:
  * `extract_callback_key` — correlation-key extraction from a JSON element,
  * `route_message_to_callback` / `handle_incoming_message` — inbound routing,
  * `websocket_handler` — the session actor loop, modelled as a fold over an
    input trace (the interleaving that `tokio::select!` happens to produce),
  * `send_await_response` — the command sequence it enqueues and the outcome
    of its `oneshot` wait.

JSON documents are modelled by `JValue`; `serde_json::Map` iteration is the
field-list order.  The registry `HashMap<String, CallbackType>` is modelled as
an association list with at most one entry per key (`rinsert` replaces,
`rerase` removes).  Side effects that the code performs (invoking a persistent
handler, resolving or failing a `oneshot` send, logging) are recorded as an
`Event` trace.
-/

/-- Model of `serde_json::Value`. -/
inductive JValue where
  | null
  | bool (b : Bool)
  | num (n : Int)
  | str (s : String)
  | arr (items : List JValue)
  | obj (fields : List (String × JValue))

/-- Models Rust `str::starts_with` on string literals (Lean's own
`String.startsWith` does not reduce in the kernel, so we compare the
underlying character lists). -/
def strStartsWith (s p : String) : Bool := p.data.isPrefixOf s.data

/-- The key test inlined in `Obniz::extract_callback_key`
(`src/obniz.rs:218-225` and `236-243`): a field name matches when it starts
with "io", "ad", "pwm" or "uart", or equals "display", "switch" or
"system". -/
def keyMatches (key : String) : Bool :=
  strStartsWith key "io" || strStartsWith key "ad" || strStartsWith key "pwm"
    || strStartsWith key "uart" || key == "display" || key == "switch"
    || key == "system"

/-- The `for (key, _) in obj` loop of `extract_callback_key`: first field name
satisfying `keyMatches`, in field order. -/
def findMatchingKey : List (String × JValue) → Option String
  | [] => none
  | (k, _) :: rest => if keyMatches k then some k else findMatchingKey rest

/-- `Obniz::extract_callback_key` (`src/obniz.rs:211-250`).  The array branch
is tried first: an array delegates to its first item when that item is an
object, and an array never reaches the object fallback branch. -/
def extract_callback_key (message : JValue) : Option String :=
  match message with
  | JValue.arr items =>
      match items.head? with
      | some (JValue.obj fields) => findMatchingKey fields
      | _ => none
  | JValue.obj fields => findMatchingKey fields
  | _ => none

/-- The extraction rule exactly as claim C1 states it: the literal set
`{display, switch, system, ws}`, or a prefixed decimal index restricted to
`io0..io11`, `ad0..ad11`, `pwm0..pwm5`, `uart0..uart2`. -/
def claimedKeyMatches (key : String) : Bool :=
  (["display", "switch", "system", "ws"]).contains key
    || (["io0", "io1", "io2", "io3", "io4", "io5", "io6", "io7", "io8",
         "io9", "io10", "io11"]).contains key
    || (["ad0", "ad1", "ad2", "ad3", "ad4", "ad5", "ad6", "ad7", "ad8",
         "ad9", "ad10", "ad11"]).contains key
    || (["pwm0", "pwm1", "pwm2", "pwm3", "pwm4", "pwm5"]).contains key
    || (["uart0", "uart1", "uart2"]).contains key

/-- Claim C1's extraction applied to an object's field list: first field whose
name satisfies `claimedKeyMatches`. -/
def claimedExtract (fields : List (String × JValue)) : Option String :=
  (fields.find? (fun p => claimedKeyMatches p.1)).map Prod.fst

/-- The key test of the amended claim: the literal set is only
`{display, switch, system}` (no `ws`), and a prefix match against
`{io, ad, pwm, uart}` accepts any suffix, with no index validation. -/
def amendedKeyMatches (key : String) : Bool :=
  (["display", "switch", "system"]).contains key
    || (["io", "ad", "pwm", "uart"]).any (fun p => strStartsWith key p)

/-- Model of `CallbackType` (`src/obniz.rs:33-36`).  A `OneShot` waiter holds
a `tokio::sync::oneshot::Sender<Value>`, identified here by a channel number;
a `Persistent` waiter holds a boxed handler closure, identified here by a
handler number. -/
inductive CallbackType where
  | OneShot (chan : Nat)
  | Persistent (handler : Nat)

/-- The callback registry `HashMap<String, CallbackType>`, as an association
list with at most one entry per key. -/
abbrev Registry := List (String × CallbackType)

/-- `HashMap::get`. -/
def rlookup : Registry → String → Option CallbackType
  | [], _ => none
  | (k, v) :: rest, key => if k == key then some v else rlookup rest key

/-- `HashMap::insert`: replaces any existing entry for the key. -/
def rinsert : Registry → String → CallbackType → Registry
  | [], key, cb => [(key, cb)]
  | (k, v) :: rest, key, cb =>
      if k == key then (key, cb) :: rest else (k, v) :: rinsert rest key cb

/-- `HashMap::remove`: removes the entry for the key when present. -/
def rerase : Registry → String → Registry
  | [], _ => []
  | (k, v) :: rest, key =>
      if k == key then rest else (k, v) :: rerase rest key

/-- The side effects the session layer performs, recorded as a trace:
a persistent handler invoked with the matched element, a `oneshot` send that
succeeded with the whole document, a `oneshot` send that failed because the
receiver was dropped (logged only), a parse failure log, a websocket read
error log, and a write failure log. -/
inductive Event where
  | persistentInvoked (handler : Nat) (element : JValue)
  | oneShotResolved (chan : Nat) (doc : JValue)
  | oneShotSendFailed (chan : Nat) (key : String)
  | parseErrorLogged
  | wsErrorLogged
  | writeErrorLogged

/-- `Obniz::route_message_to_callback` (`src/obniz.rs:184-209`): extract the
key of one element; a registered `OneShot` waiter only marks its key for
removal, a registered `Persistent` handler is invoked immediately with the
element itself. -/
def route_message_to_callback (message : JValue) (callbacks : Registry) :
    List String × List Event :=
  match extract_callback_key message with
  | none => ([], [])
  | some key =>
      match rlookup callbacks key with
      | none => ([], [])
      | some (CallbackType.OneShot _) => ([key], [])
      | some (CallbackType.Persistent f) =>
          ([], [Event.persistentInvoked f message])

/-- The `for item in array` loop of `handle_incoming_message`
(`src/obniz.rs:155-160`): every item is routed against the same registry
snapshot (the read guard is held for the whole loop), and the per-item
`keys_to_remove` and persistent invocations are concatenated in item
order. -/
def route_items (callbacks : Registry) : List JValue → List String × List Event
  | [] => ([], [])
  | item :: rest =>
      let r := route_message_to_callback item callbacks
      let rs := route_items callbacks rest
      (r.1 ++ rs.1, r.2 ++ rs.2)

/-- The routing phase of `handle_incoming_message` (`src/obniz.rs:150-166`):
an array document routes each item; any other document is routed as a single
element. -/
def route_document (value : JValue) (callbacks : Registry) :
    List String × List Event :=
  match value with
  | JValue.arr items => route_items callbacks items
  | v => route_message_to_callback v callbacks

/-- The removal phase of `handle_incoming_message` (`src/obniz.rs:169-179`):
for each key marked for removal, `remove` the entry unconditionally; when the
removed entry is a `OneShot`, send the whole original document through its
channel, logging (only) if the receiver is gone.  A second occurrence of the
same key finds no entry and is a no-op.  `openChans` lists the `oneshot`
channels whose receiver is still alive: `Sender::send` fails exactly when the
receiver has been dropped. -/
def resolve_removals (openChans : List Nat) (value : JValue) :
    List String → Registry → Registry × List Event
  | [], reg => (reg, [])
  | k :: rest, reg =>
      match rlookup reg k with
      | some (CallbackType.OneShot chan) =>
          let r := resolve_removals openChans value rest (rerase reg k)
          (r.1, (if openChans.contains chan
                 then Event.oneShotResolved chan value
                 else Event.oneShotSendFailed chan k) :: r.2)
      | some (CallbackType.Persistent _) =>
          resolve_removals openChans value rest (rerase reg k)
      | none => resolve_removals openChans value rest reg

/-- `Obniz::handle_incoming_message` (`src/obniz.rs:139-182`).  The inbound
frame is modelled post-parse: `none` is a frame whose text/JSON parsing
failed (the function returns an error, which the caller logs), `some value`
is the parsed document.  All persistent invocations happen during the
routing phase, so they precede the `oneshot` resolutions in the trace, as in
the code. -/
def handle_incoming_message (openChans : List Nat) (frame : Option JValue)
    (callbacks : Registry) : Registry × List Event :=
  match frame with
  | none => (callbacks, [Event.parseErrorLogged])
  | some value =>
      let routed := route_document value callbacks
      let res := resolve_removals openChans value routed.1 callbacks
      (res.1, routed.2 ++ res.2)

/-- `ObnizCommand` (`src/obniz.rs:56-68`).  The outbound message payload is
the wire text; the actor never inspects it. -/
inductive ObnizCommand where
  | Send (message : String) (response_key : Option String)
  | RegisterCallback (key : String) (callback : CallbackType)
  | UnregisterCallback (key : String)

/-- One wake-up of the actor's `tokio::select!` loop (`src/obniz.rs:100-135`).
The trace order is the interleaving the select happens to produce.
  * `cmd c writeOk`: `cmd_receiver.recv()` yielded `Some(c)`; for a `Send`
    command `writeOk` is the transport's answer to `write.send` (ignored for
    the other commands).
  * `queueClosed`: `recv()` yielded `None` — every `Obniz` handle is gone.
  * `frame f`: `read.next()` yielded `Some(Ok(msg))`; `f` is the parse
    result of `handle_incoming_message` (`none` for a malformed frame).
  * `wsReadError`: `read.next()` yielded `Some(Err(e))` — logged only.
  * `streamEnd`: `read.next()` yielded `None` — the connection closed. -/
inductive ActorInput where
  | cmd (c : ObnizCommand) (writeOk : Bool)
  | queueClosed
  | frame (parsed : Option JValue)
  | wsReadError
  | streamEnd

/-- The actor's state: the registry it owns, the side-effect trace so far,
and whether the loop has exited (`break`). -/
structure ActorState where
  registry : Registry
  events : List Event
  terminated : Bool

/-- One iteration of `websocket_handler`'s loop.  A terminated actor consumes
nothing further. -/
def actorStep (openChans : List Nat) (st : ActorState) (input : ActorInput) :
    ActorState :=
  if st.terminated then st else
  match input with
  | ActorInput.cmd (ObnizCommand.Send _ _) writeOk =>
      { st with events :=
          st.events ++ (if writeOk then [] else [Event.writeErrorLogged]) }
  | ActorInput.cmd (ObnizCommand.RegisterCallback k cb) _ =>
      { st with registry := rinsert st.registry k cb }
  | ActorInput.cmd (ObnizCommand.UnregisterCallback k) _ =>
      { st with registry := rerase st.registry k }
  | ActorInput.queueClosed => { st with terminated := true }
  | ActorInput.frame f =>
      let r := handle_incoming_message openChans f st.registry
      { st with registry := r.1, events := st.events ++ r.2 }
  | ActorInput.wsReadError =>
      { st with events := st.events ++ [Event.wsErrorLogged] }
  | ActorInput.streamEnd => { st with terminated := true }

/-- `Obniz::websocket_handler` (`src/obniz.rs:94-137`) run over a finite
input trace, starting from the empty registry built in `Obniz::new`. -/
def websocket_handler (openChans : List Nat) (inputs : List ActorInput) :
    ActorState :=
  inputs.foldl (actorStep openChans) ⟨[], [], false⟩

/-- The two commands `Obniz::send_await_response` (`src/obniz.rs:261-288`)
enqueues on the single command channel, in order: first the `OneShot`
registration, then the send. -/
def send_await_response_commands (msg : String) (chan : Nat)
    (response_key : String) : List ObnizCommand :=
  [ObnizCommand.RegisterCallback response_key (CallbackType.OneShot chan),
   ObnizCommand.Send msg (some response_key)]

/-- Does an event deliver a value on channel `chan`? -/
def resolvesOn (chan : Nat) (e : Event) : Option JValue :=
  match e with
  | Event.oneShotResolved c doc => if c == chan then some doc else none
  | _ => none

/-- The outcome of `rx.await` in `send_await_response`, read off the actor
trace: the first successful `oneshot` send on this call's channel. -/
def awaitOutcome (chan : Nat) : List Event → Option JValue
  | [] => none
  | e :: rest =>
      match resolvesOn chan e with
      | some doc => some doc
      | none => awaitOutcome chan rest

/-- The status of a pending `send_await_response` call after the actor has
consumed a trace.  `resolved doc` models `rx.await` returning `Ok(doc)`.
When the actor's loop exits it drops the registry and with it every stored
`oneshot::Sender`, so a receiver still pending at that point gets
`Err(RecvError)` — `disconnected` models the resulting
"Failed to receive response" error.  Otherwise the call is still
suspended (`pending`). -/
inductive CallStatus where
  | resolved (doc : JValue)
  | disconnected
  | pending

def callStatus (chan : Nat) (st : ActorState) : CallStatus :=
  match awaitOutcome chan st.events with
  | some doc => CallStatus.resolved doc
  | none => if st.terminated then CallStatus.disconnected else CallStatus.pending

/-- Does one parsed document contain an element routed to `key`?  Mirrors the
element decomposition of `handle_incoming_message`. -/
def docMatches (value : JValue) (key : String) : Bool :=
  match value with
  | JValue.arr items =>
      items.any (fun item => extract_callback_key item == some key)
  | v => extract_callback_key v == some key

/-- Does a frame (parse result) contain an element routed to `key`?
A malformed frame matches nothing. -/
def frameMatches (frame : Option JValue) (key : String) : Bool :=
  match frame with
  | none => false
  | some v => docMatches v key

/-- The registry holds at most one entry per key (what `HashMap` guarantees
by construction). -/
def KeysNodup (reg : Registry) : Prop := (reg.map Prod.fst).Nodup

/-- The parse-failure logs a list of frames produces when nothing else in the
registry reacts to them. -/
def parseLogs : List (Option JValue) → List Event
  | [] => []
  | none :: rest => Event.parseErrorLogged :: parseLogs rest
  | some _ :: rest => parseLogs rest

/-- The two select results that make the actor loop `break`
(`src/obniz.rs:115` and `132`): the command channel reporting that every
sender is gone, and the read stream reporting end-of-stream. -/
def isCloseInput : ActorInput → Bool
  | ActorInput.queueClosed => true
  | ActorInput.streamEnd => true
  | _ => false

/-- Every event except the parse-failure log: the routing-relevant part of
the trace. -/
def notParseLog : Event → Bool
  | Event.parseErrorLogged => false
  | _ => true

theorem keyMatches_eq_amended (key : String) :
    keyMatches key = amendedKeyMatches key := by
  simp only [keyMatches, amendedKeyMatches, List.contains_cons,
    List.contains_nil, List.any_cons, List.any_nil, Bool.or_false]
  cases h1 : strStartsWith key "io" <;> cases h2 : strStartsWith key "ad" <;>
    cases h3 : strStartsWith key "pwm" <;>
      cases h4 : strStartsWith key "uart" <;>
        cases h5 : (key == "display") <;> cases h6 : (key == "switch") <;>
          cases h7 : (key == "system") <;> rfl

theorem findMatchingKey_eq_find (fields : List (String × JValue)) :
    findMatchingKey fields
      = (fields.find? (fun p => keyMatches p.1)).map Prod.fst := by
  induction fields with
  | nil => rfl
  | cons hd tl ih =>
      by_cases h : keyMatches hd.1 = true
      · simp [findMatchingKey, List.find?, h]
      · rw [Bool.not_eq_true] at h
        simp [findMatchingKey, List.find?, h, ih]

/-- C1: the claim's allow-list disagrees with the code on the field name
`ws` (in the claim's literal set, never returned by the code) and on `io99`
(outside the claim's index ranges, yet returned by the code). -/
theorem C1_counterexample :
    claimedExtract [("ws", JValue.null)] = some "ws"
      ∧ extract_callback_key (JValue.obj [("ws", JValue.null)]) = none
      ∧ claimedExtract [("io99", JValue.null)] = none
      ∧ extract_callback_key (JValue.obj [("io99", JValue.null)])
          = some "io99" := by
  refine ⟨by decide, by decide, by decide, by decide⟩

/-- C1 (amended): for every JSON object element, extraction returns the first
field name that is in the literal set `{display, switch, system}` or starts
with one of the prefixes `io`, `ad`, `pwm`, `uart` (any suffix, no index
validation, and `ws` is not matched); if no field matches, it returns
`none`. -/
theorem C1_amended_extraction (fields : List (String × JValue)) :
    extract_callback_key (JValue.obj fields)
      = (fields.find? (fun p => amendedKeyMatches p.1)).map Prod.fst := by
  have hfun : (fun p : String × JValue => keyMatches p.1)
      = fun p : String × JValue => amendedKeyMatches p.1 := by
    funext p; exact keyMatches_eq_amended p.1
  show findMatchingKey fields = _
  rw [findMatchingKey_eq_find, hfun]

theorem rlookup_rinsert_self (reg : Registry) (k : String) (cb : CallbackType) :
    rlookup (rinsert reg k cb) k = some cb := by
  induction reg with
  | nil => simp [rinsert, rlookup]
  | cons hd tl ih =>
      obtain ⟨k1, v1⟩ := hd
      by_cases h : k1 = k
      · simp [rinsert, h, rlookup]
      · have hb : (k1 == k) = false := beq_eq_false_iff_ne.mpr h
        simp [rinsert, hb, rlookup, ih]

theorem rlookup_rinsert_ne (reg : Registry) (k k2 : String) (cb : CallbackType)
    (h : k2 ≠ k) : rlookup (rinsert reg k cb) k2 = rlookup reg k2 := by
  have hb : (k == k2) = false := beq_eq_false_iff_ne.mpr (Ne.symm h)
  induction reg with
  | nil => simp [rinsert, rlookup, hb]
  | cons hd tl ih =>
      obtain ⟨k1, v1⟩ := hd
      by_cases h1 : k1 = k
      · subst h1
        simp [rinsert, rlookup, hb]
      · have hb1 : (k1 == k) = false := beq_eq_false_iff_ne.mpr h1
        by_cases h2 : k1 = k2
        · subst h2
          simp [rinsert, hb1, rlookup]
        · have hb2 : (k1 == k2) = false := beq_eq_false_iff_ne.mpr h2
          simp [rinsert, hb1, rlookup, hb2, ih]

theorem rlookup_rerase_ne (reg : Registry) (k k2 : String)
    (h : k2 ≠ k) : rlookup (rerase reg k) k2 = rlookup reg k2 := by
  induction reg with
  | nil => rfl
  | cons hd tl ih =>
      obtain ⟨k1, v1⟩ := hd
      by_cases h1 : k1 = k
      · subst h1
        have hb2 : (k1 == k2) = false := beq_eq_false_iff_ne.mpr (Ne.symm h)
        simp [rerase, rlookup, hb2]
      · have hb1 : (k1 == k) = false := beq_eq_false_iff_ne.mpr h1
        by_cases h2 : k1 = k2
        · subst h2
          simp [rerase, hb1, rlookup]
        · have hb2 : (k1 == k2) = false := beq_eq_false_iff_ne.mpr h2
          simp [rerase, hb1, rlookup, hb2, ih]

theorem rlookup_not_mem (reg : Registry) (k : String)
    (h : k ∉ reg.map Prod.fst) : rlookup reg k = none := by
  induction reg with
  | nil => rfl
  | cons hd tl ih =>
      obtain ⟨k1, v1⟩ := hd
      simp only [List.map_cons, List.mem_cons] at h
      push_neg at h
      have hb : (k1 == k) = false := beq_eq_false_iff_ne.mpr (Ne.symm h.1)
      simp [rlookup, hb, ih h.2]

theorem rlookup_rerase_self (reg : Registry) (k : String)
    (h : KeysNodup reg) : rlookup (rerase reg k) k = none := by
  induction reg with
  | nil => rfl
  | cons hd tl ih =>
      obtain ⟨k1, v1⟩ := hd
      unfold KeysNodup at h
      simp only [List.map_cons, List.nodup_cons] at h
      by_cases h1 : k1 = k
      · subst h1
        simpa [rerase] using rlookup_not_mem tl k1 h.1
      · have hb1 : (k1 == k) = false := beq_eq_false_iff_ne.mpr h1
        simp [rerase, hb1, rlookup, ih h.2]

theorem rerase_keys_sublist (reg : Registry) (k : String) :
    ((rerase reg k).map Prod.fst).Sublist (reg.map Prod.fst) := by
  induction reg with
  | nil => simp [rerase]
  | cons hd tl ih =>
      obtain ⟨k1, v1⟩ := hd
      by_cases h1 : k1 = k
      · have hb1 : (k1 == k) = true := beq_iff_eq.mpr h1
        simp only [rerase, hb1, if_true, List.map_cons]
        exact List.sublist_cons_self k1 (tl.map Prod.fst)
      · have hb1 : (k1 == k) = false := beq_eq_false_iff_ne.mpr h1
        simp only [rerase, hb1, if_false, List.map_cons]
        exact List.Sublist.cons₂ k1 ih

theorem rerase_nodup (reg : Registry) (k : String) (h : KeysNodup reg) :
    KeysNodup (rerase reg k) :=
  h.sublist (rerase_keys_sublist reg k)

theorem rinsert_keys_subset (reg : Registry) (k : String) (cb : CallbackType) :
    ∀ x ∈ (rinsert reg k cb).map Prod.fst, x ∈ reg.map Prod.fst ∨ x = k := by
  induction reg with
  | nil =>
      intro x hx
      simp only [rinsert, List.map_cons, List.map_nil,
        List.mem_singleton] at hx
      exact Or.inr hx
  | cons hd tl ih =>
      obtain ⟨k1, v1⟩ := hd
      intro x hx
      by_cases h1 : k1 = k
      · have hb1 : (k1 == k) = true := beq_iff_eq.mpr h1
        simp only [rinsert] at hx
        rw [if_pos hb1] at hx
        simp only [List.map_cons, List.mem_cons] at hx
        rcases hx with hx | hx
        · exact Or.inr hx
        · refine Or.inl ?_
          simp only [List.map_cons, List.mem_cons]
          exact Or.inr hx
      · have hb1 : (k1 == k) = false := beq_eq_false_iff_ne.mpr h1
        simp only [rinsert] at hx
        rw [if_neg (by simp [hb1])] at hx
        simp only [List.map_cons, List.mem_cons] at hx
        rcases hx with hx | hx
        · refine Or.inl ?_
          simp only [List.map_cons, List.mem_cons]
          exact Or.inl hx
        · rcases ih x hx with hx2 | hx2
          · refine Or.inl ?_
            simp only [List.map_cons, List.mem_cons]
            exact Or.inr hx2
          · exact Or.inr hx2

theorem rinsert_nodup (reg : Registry) (k : String) (cb : CallbackType)
    (h : KeysNodup reg) : KeysNodup (rinsert reg k cb) := by
  induction reg with
  | nil => simp [rinsert, KeysNodup]
  | cons hd tl ih =>
      obtain ⟨k1, v1⟩ := hd
      unfold KeysNodup at h
      simp only [List.map_cons, List.nodup_cons] at h
      by_cases h1 : k1 = k
      · subst h1
        have hb1 : (k1 == k1) = true := beq_self_eq_true k1
        unfold KeysNodup
        simp only [rinsert]
        rw [if_pos hb1]
        simp only [List.map_cons, List.nodup_cons]
        exact ⟨h.1, h.2⟩
      · have hb1 : (k1 == k) = false := beq_eq_false_iff_ne.mpr h1
        unfold KeysNodup
        simp only [rinsert]
        rw [if_neg (by simp [hb1])]
        simp only [List.map_cons, List.nodup_cons]
        refine ⟨?_, ih h.2⟩
        intro hmem
        rcases rinsert_keys_subset tl k cb k1 hmem with hx | hx
        · exact h.1 hx
        · exact h1 hx

theorem route_nomatch_single (item : JValue) (k : String) (cb : CallbackType)
    (h : (extract_callback_key item == some k) = false) :
    route_message_to_callback item [(k, cb)] = ([], []) := by
  unfold route_message_to_callback
  cases hx : extract_callback_key item with
  | none => rfl
  | some k2 =>
      rw [hx] at h
      have hk : k2 ≠ k := by
        intro he
        subst he
        simp at h
      have hb : (k == k2) = false := beq_eq_false_iff_ne.mpr (Ne.symm hk)
      simp [rlookup, hb]

theorem route_oneshot (item : JValue) (reg : Registry) (k : String) (chan : Nat)
    (hx : extract_callback_key item = some k)
    (hl : rlookup reg k = some (CallbackType.OneShot chan)) :
    route_message_to_callback item reg = ([k], []) := by
  simp only [route_message_to_callback, hx, hl]

theorem route_persistent (item : JValue) (reg : Registry) (k : String) (f : Nat)
    (hx : extract_callback_key item = some k)
    (hl : rlookup reg k = some (CallbackType.Persistent f)) :
    route_message_to_callback item reg
      = ([], [Event.persistentInvoked f item]) := by
  simp only [route_message_to_callback, hx, hl]

theorem route_empty_reg (item : JValue) :
    route_message_to_callback item [] = ([], []) := by
  unfold route_message_to_callback
  cases hx : extract_callback_key item <;> simp [rlookup]

theorem route_items_empty_reg (items : List JValue) :
    route_items [] items = ([], []) := by
  induction items with
  | nil => rfl
  | cons hd tl ih => simp [route_items, route_empty_reg, ih]

theorem route_document_empty_reg (v : JValue) :
    route_document v [] = ([], []) := by
  cases v <;> simp [route_document, route_items_empty_reg, route_empty_reg]

theorem route_items_single_nomatch (k : String) (cb : CallbackType)
    (items : List JValue)
    (h : ∀ item ∈ items, (extract_callback_key item == some k) = false) :
    route_items [(k, cb)] items = ([], []) := by
  induction items with
  | nil => rfl
  | cons hd tl ih =>
      simp [route_items,
        route_nomatch_single hd k cb (h hd (List.mem_cons_self hd tl)),
        ih (fun i hi => h i (List.mem_cons_of_mem hd hi))]

theorem route_document_single_nomatch (v : JValue) (k : String)
    (cb : CallbackType) (h : docMatches v k = false) :
    route_document v [(k, cb)] = ([], []) := by
  cases v with
  | arr items =>
      simp only [docMatches, List.any_eq_false] at h
      refine route_items_single_nomatch k cb items ?_
      intro item hitem
      have := h item hitem
      simpa using this
  | null => exact route_nomatch_single _ k cb h
  | bool b => exact route_nomatch_single _ k cb h
  | num n => exact route_nomatch_single _ k cb h
  | str s => exact route_nomatch_single _ k cb h
  | obj fields => exact route_nomatch_single _ k cb h

theorem resolve_skip_all (oc : List Nat) (v : JValue) (ks : List String)
    (reg : Registry) (h : ∀ x ∈ ks, rlookup reg x = none) :
    resolve_removals oc v ks reg = (reg, []) := by
  induction ks with
  | nil => rfl
  | cons hd tl ih =>
      simp only [resolve_removals, h hd (List.mem_cons_self hd tl)]
      exact ih (fun x hx => h x (List.mem_cons_of_mem hd hx))

theorem resolve_oneshot_head (oc : List Nat) (v : JValue) (chan : Nat)
    (k : String) (ks : List String) (reg : Registry)
    (hl : rlookup reg k = some (CallbackType.OneShot chan))
    (hrest : ∀ x ∈ ks, rlookup (rerase reg k) x = none) :
    resolve_removals oc v (k :: ks) reg
      = (rerase reg k,
         [if oc.contains chan then Event.oneShotResolved chan v
          else Event.oneShotSendFailed chan k]) := by
  simp only [resolve_removals, hl, resolve_skip_all oc v ks (rerase reg k) hrest]

theorem handle_none (oc : List Nat) (reg : Registry) :
    handle_incoming_message oc none reg = (reg, [Event.parseErrorLogged]) := rfl

theorem handle_single_nomatch (oc : List Nat) (v : JValue) (k : String)
    (cb : CallbackType) (h : docMatches v k = false) :
    handle_incoming_message oc (some v) [(k, cb)] = ([(k, cb)], []) := by
  simp [handle_incoming_message, route_document_single_nomatch v k cb h,
    resolve_removals]

theorem handle_empty_reg (oc : List Nat) (v : JValue) :
    handle_incoming_message oc (some v) [] = ([], []) := by
  simp [handle_incoming_message, route_document_empty_reg, resolve_removals]

theorem parseLogs_mem (fs : List (Option JValue)) :
    ∀ e ∈ parseLogs fs, e = Event.parseErrorLogged := by
  induction fs with
  | nil => simp [parseLogs]
  | cons hd tl ih =>
      cases hd with
      | none =>
          intro e he
          simp only [parseLogs, List.mem_cons] at he
          rcases he with he | he
          · exact he
          · exact ih e he
      | some v => exact ih

theorem resolvesOn_self (chan : Nat) (v : JValue) :
    resolvesOn chan (Event.oneShotResolved chan v) = some v := by
  simp [resolvesOn]

theorem awaitOutcome_append_none (chan : Nat) (xs ys : List Event)
    (h : ∀ e ∈ xs, resolvesOn chan e = none) :
    awaitOutcome chan (xs ++ ys) = awaitOutcome chan ys := by
  induction xs with
  | nil => rfl
  | cons hd tl ih =>
      simp only [List.cons_append, awaitOutcome,
        h hd (List.mem_cons_self hd tl)]
      exact ih (fun e he => h e (List.mem_cons_of_mem hd he))

theorem awaitOutcome_none_of (chan : Nat) (xs : List Event)
    (h : ∀ e ∈ xs, resolvesOn chan e = none) :
    awaitOutcome chan xs = none := by
  have := awaitOutcome_append_none chan xs [] h
  simpa using this

theorem resolvesOn_parseLogs (chan : Nat) (fs : List (Option JValue)) :
    ∀ e ∈ parseLogs fs, resolvesOn chan e = none := by
  intro e he
  rw [parseLogs_mem fs e he]
  rfl

theorem actorStep_split (oc : List Nat) (r : Registry) (E : List Event)
    (t : Bool) (i : ActorInput) :
    actorStep oc ⟨r, E, t⟩ i
      = ⟨(actorStep oc ⟨r, [], t⟩ i).registry,
         E ++ (actorStep oc ⟨r, [], t⟩ i).events,
         (actorStep oc ⟨r, [], t⟩ i).terminated⟩ := by
  cases t with
  | true => simp [actorStep]
  | false =>
      cases i with
      | cmd c wOk => cases c <;> cases wOk <;> simp [actorStep]
      | queueClosed => simp [actorStep]
      | frame f => simp [actorStep]
      | wsReadError => simp [actorStep]
      | streamEnd => simp [actorStep]

theorem foldl_actorStep_split (oc : List Nat) (ins : List ActorInput) :
    ∀ (r : Registry) (E : List Event) (t : Bool),
    List.foldl (actorStep oc) ⟨r, E, t⟩ ins
      = ⟨(List.foldl (actorStep oc) ⟨r, [], t⟩ ins).registry,
         E ++ (List.foldl (actorStep oc) ⟨r, [], t⟩ ins).events,
         (List.foldl (actorStep oc) ⟨r, [], t⟩ ins).terminated⟩ := by
  induction ins with
  | nil => intro r E t; simp
  | cons i ins ih =>
      intro r E t
      simp only [List.foldl_cons]
      rw [actorStep_split oc r E t i]
      rw [ih (actorStep oc ⟨r, [], t⟩ i).registry
            (E ++ (actorStep oc ⟨r, [], t⟩ i).events)
            (actorStep oc ⟨r, [], t⟩ i).terminated]
      have heta : actorStep oc ⟨r, [], t⟩ i
          = (⟨(actorStep oc ⟨r, [], t⟩ i).registry,
              (actorStep oc ⟨r, [], t⟩ i).events,
              (actorStep oc ⟨r, [], t⟩ i).terminated⟩ : ActorState) := rfl
      conv_rhs => rw [heta]
      rw [ih (actorStep oc ⟨r, [], t⟩ i).registry
            (actorStep oc ⟨r, [], t⟩ i).events
            (actorStep oc ⟨r, [], t⟩ i).terminated]
      simp [List.append_assoc]

theorem websocket_handler_append (oc : List Nat) (a b : List ActorInput) :
    websocket_handler oc (a ++ b)
      = List.foldl (actorStep oc) (websocket_handler oc a) b := by
  unfold websocket_handler
  simp [List.foldl_append]

theorem fold_frames_inert (oc : List Nat) (r : Registry)
    (frames : List (Option JValue)) :
    ∀ (E : List Event),
    (∀ v, some v ∈ frames → handle_incoming_message oc (some v) r = (r, [])) →
    List.foldl (actorStep oc) ⟨r, E, false⟩ (frames.map ActorInput.frame)
      = ⟨r, E ++ parseLogs frames, false⟩ := by
  induction frames with
  | nil => intro E _; simp [parseLogs]
  | cons hd tl ih =>
      intro E h
      cases hd with
      | none =>
          simp only [List.map_cons, List.foldl_cons]
          have hstep : actorStep oc ⟨r, E, false⟩ (ActorInput.frame none)
              = ⟨r, E ++ [Event.parseErrorLogged], false⟩ := by
            simp [actorStep, handle_incoming_message]
          rw [hstep,
            ih (E ++ [Event.parseErrorLogged])
              (fun v hv => h v (List.mem_cons_of_mem none hv))]
          simp [parseLogs]
      | some v =>
          simp only [List.map_cons, List.foldl_cons]
          have hstep : actorStep oc ⟨r, E, false⟩ (ActorInput.frame (some v))
              = ⟨r, E, false⟩ := by
            simp [actorStep, h v (List.mem_cons_self _ tl)]
          rw [hstep, ih E (fun w hw => h w (List.mem_cons_of_mem (some v) hw))]
          simp [parseLogs]

theorem run_two_cmds (oc : List Nat) (k : String) (chan : Nat) (msg : String)
    (wOk : Bool) :
    List.foldl (actorStep oc) ⟨[], [], false⟩
      [ActorInput.cmd
         (ObnizCommand.RegisterCallback k (CallbackType.OneShot chan)) true,
       ActorInput.cmd (ObnizCommand.Send msg (some k)) wOk]
      = ⟨[(k, CallbackType.OneShot chan)],
         if wOk then [] else [Event.writeErrorLogged], false⟩ := by
  cases wOk <;> simp [actorStep, rinsert]

theorem route_items_single_oneshot (k : String) (chan : Nat)
    (items : List JValue) :
    ∃ n, route_items [(k, CallbackType.OneShot chan)] items
        = (List.replicate n k, [])
      ∧ ((items.any fun it => extract_callback_key it == some k) = true →
          0 < n) := by
  induction items with
  | nil =>
      refine ⟨0, rfl, ?_⟩
      intro h
      simp at h
  | cons hd tl ih =>
      obtain ⟨n, heq, hpos⟩ := ih
      cases hx : (extract_callback_key hd == some k) with
      | true =>
          have hx2 : extract_callback_key hd = some k := beq_iff_eq.mp hx
          refine ⟨n + 1, ?_, fun _ => Nat.succ_pos n⟩
          have hl : rlookup [(k, CallbackType.OneShot chan)] k
              = some (CallbackType.OneShot chan) := by
            simp [rlookup]
          simp [route_items, route_oneshot hd _ k chan hx2 hl, heq,
            List.replicate_succ]
      | false =>
          refine ⟨n, ?_, ?_⟩
          · simp [route_items, route_nomatch_single hd k _ hx, heq]
          · intro h
            simp only [List.any_cons, hx, Bool.false_or] at h
            exact hpos h

theorem handle_single_match (oc : List Nat) (doc : JValue) (k : String)
    (chan : Nat) (h : docMatches doc k = true) :
    handle_incoming_message oc (some doc) [(k, CallbackType.OneShot chan)]
      = ([], [if oc.contains chan then Event.oneShotResolved chan doc
              else Event.oneShotSendFailed chan k]) := by
  have hl : rlookup [(k, CallbackType.OneShot chan)] k
      = some (CallbackType.OneShot chan) := by simp [rlookup]
  have herase : rerase [(k, CallbackType.OneShot chan)] k = [] := by
    simp [rerase]
  cases doc with
  | arr items =>
      obtain ⟨n, heq, hpos⟩ := route_items_single_oneshot k chan items
      have hn : 0 < n := by
        apply hpos
        simpa [docMatches] using h
      obtain ⟨m, hm⟩ : ∃ m, n = m + 1 :=
        ⟨n - 1, (Nat.succ_pred_eq_of_pos hn).symm⟩
      subst hm
      have hres : resolve_removals oc (JValue.arr items)
          (List.replicate (m + 1) k) [(k, CallbackType.OneShot chan)]
          = ([], [if oc.contains chan
                  then Event.oneShotResolved chan (JValue.arr items)
                  else Event.oneShotSendFailed chan k]) := by
        rw [List.replicate_succ]
        rw [resolve_oneshot_head oc (JValue.arr items) chan k
              (List.replicate m k) [(k, CallbackType.OneShot chan)] hl ?_]
        · rw [herase]
        · intro x hx
          rw [herase]
          rfl
      simp [handle_incoming_message, route_document, heq, hres]
  | null =>
      simp only [docMatches] at h
      have hx : extract_callback_key JValue.null = some k := beq_iff_eq.mp h
      simp [handle_incoming_message, route_document,
        route_oneshot _ _ k chan hx hl,
        resolve_oneshot_head oc _ chan k [] _ hl (by simp), herase]
  | bool b =>
      simp only [docMatches] at h
      have hx : extract_callback_key (JValue.bool b) = some k := beq_iff_eq.mp h
      simp [handle_incoming_message, route_document,
        route_oneshot _ _ k chan hx hl,
        resolve_oneshot_head oc _ chan k [] _ hl (by simp), herase]
  | num n =>
      simp only [docMatches] at h
      have hx : extract_callback_key (JValue.num n) = some k := beq_iff_eq.mp h
      simp [handle_incoming_message, route_document,
        route_oneshot _ _ k chan hx hl,
        resolve_oneshot_head oc _ chan k [] _ hl (by simp), herase]
  | str s =>
      simp only [docMatches] at h
      have hx : extract_callback_key (JValue.str s) = some k := beq_iff_eq.mp h
      simp [handle_incoming_message, route_document,
        route_oneshot _ _ k chan hx hl,
        resolve_oneshot_head oc _ chan k [] _ hl (by simp), herase]
  | obj fields =>
      simp only [docMatches] at h
      have hx : extract_callback_key (JValue.obj fields) = some k :=
        beq_iff_eq.mp h
      simp [handle_incoming_message, route_document,
        route_oneshot _ _ k chan hx hl,
        resolve_oneshot_head oc _ chan k [] _ hl (by simp), herase]

theorem callStatus_resolved_of (chan : Nat) (st : ActorState) (doc : JValue)
    (h : awaitOutcome chan st.events = some doc) :
    callStatus chan st = CallStatus.resolved doc := by
  unfold callStatus
  rw [h]

theorem callStatus_disconnected_of (chan : Nat) (st : ActorState)
    (h : awaitOutcome chan st.events = none) (ht : st.terminated = true) :
    callStatus chan st = CallStatus.disconnected := by
  unfold callStatus
  rw [h, ht]
  rfl

/-- C2: an inbound document with an element whose key has a `OneShot` waiter
registered resolves that waiter with the entire original document (not the
matched element), and removes the registry entry; hence
`send_await_response` (which enqueues the registration and the send, then
awaits channel `chan`) obtains exactly the document of the first inbound
frame matching its key, even when unrelated (or malformed) frames arrive
first. -/
theorem C2_oneshot_resolved_with_whole_document (oc : List Nat) (k : String)
    (chan : Nat) (msg : String) (wOk : Bool) (pre rest : List (Option JValue))
    (doc : JValue)
    (hpre : ∀ f ∈ pre, frameMatches f k = false)
    (hdoc : docMatches doc k = true)
    (hopen : oc.contains chan = true) :
    callStatus chan (websocket_handler oc
        ([ActorInput.cmd
            (ObnizCommand.RegisterCallback k (CallbackType.OneShot chan)) true,
          ActorInput.cmd (ObnizCommand.Send msg (some k)) wOk]
         ++ pre.map ActorInput.frame
         ++ (ActorInput.frame (some doc) :: rest.map ActorInput.frame)))
      = CallStatus.resolved doc
    ∧ rlookup (websocket_handler oc
        ([ActorInput.cmd
            (ObnizCommand.RegisterCallback k (CallbackType.OneShot chan)) true,
          ActorInput.cmd (ObnizCommand.Send msg (some k)) wOk]
         ++ pre.map ActorInput.frame
         ++ (ActorInput.frame (some doc) :: rest.map ActorInput.frame))).registry
        k = none := by
  have hE0 : ∀ e ∈ (if wOk then ([] : List Event)
      else [Event.writeErrorLogged]), resolvesOn chan e = none := by
    cases wOk <;> simp [resolvesOn]
  have hinert : ∀ v, some v ∈ pre →
      handle_incoming_message oc (some v) [(k, CallbackType.OneShot chan)]
        = ([(k, CallbackType.OneShot chan)], []) := by
    intro v hv
    exact handle_single_nomatch oc v k _ (hpre (some v) hv)
  have hcmds : websocket_handler oc
      [ActorInput.cmd
         (ObnizCommand.RegisterCallback k (CallbackType.OneShot chan)) true,
       ActorInput.cmd (ObnizCommand.Send msg (some k)) wOk]
      = ⟨[(k, CallbackType.OneShot chan)],
         if wOk then [] else [Event.writeErrorLogged], false⟩ :=
    run_two_cmds oc k chan msg wOk
  have hmem : chan ∈ oc := by simpa using hopen
  have hstep : actorStep oc
      ⟨[(k, CallbackType.OneShot chan)],
       (if wOk then [] else [Event.writeErrorLogged]) ++ parseLogs pre, false⟩
      (ActorInput.frame (some doc))
      = ⟨[], ((if wOk then [] else [Event.writeErrorLogged]) ++ parseLogs pre)
             ++ [Event.oneShotResolved chan doc], false⟩ := by
    simp [actorStep, handle_single_match oc doc k chan hdoc, hopen, hmem]
  have hrun : websocket_handler oc
      ([ActorInput.cmd
          (ObnizCommand.RegisterCallback k (CallbackType.OneShot chan)) true,
        ActorInput.cmd (ObnizCommand.Send msg (some k)) wOk]
       ++ pre.map ActorInput.frame
       ++ (ActorInput.frame (some doc) :: rest.map ActorInput.frame))
      = ⟨[], ((((if wOk then [] else [Event.writeErrorLogged])
               ++ parseLogs pre)
              ++ [Event.oneShotResolved chan doc]) ++ parseLogs rest),
         false⟩ := by
    rw [websocket_handler_append, websocket_handler_append, hcmds]
    rw [fold_frames_inert oc [(k, CallbackType.OneShot chan)] pre
          (if wOk then [] else [Event.writeErrorLogged]) hinert]
    rw [List.foldl_cons, hstep]
    exact fold_frames_inert oc [] rest _ (fun v _ => handle_empty_reg oc v)
  have h1 : awaitOutcome chan
      ((((if wOk then [] else [Event.writeErrorLogged]) ++ parseLogs pre)
        ++ [Event.oneShotResolved chan doc]) ++ parseLogs rest)
      = some doc := by
    simp only [List.append_assoc]
    rw [awaitOutcome_append_none chan _ _ hE0]
    rw [awaitOutcome_append_none chan _ _ (resolvesOn_parseLogs chan pre)]
    simp [awaitOutcome, resolvesOn]
  refine ⟨?_, ?_⟩
  · refine callStatus_resolved_of chan _ doc ?_
    rw [hrun]
    exact h1
  · rw [hrun]
    rfl

theorem C2_witness :
    callStatus 0 (websocket_handler [0]
        ([ActorInput.cmd
            (ObnizCommand.RegisterCallback "io3" (CallbackType.OneShot 0)) true,
          ActorInput.cmd (ObnizCommand.Send "m" (some "io3")) true]
         ++ ([some (JValue.obj [("ad0", JValue.null)])]).map ActorInput.frame
         ++ (ActorInput.frame
              (some (JValue.arr [JValue.obj [("io3", JValue.bool false)]]))
            :: ([] : List (Option JValue)).map ActorInput.frame)))
      = CallStatus.resolved (JValue.arr [JValue.obj [("io3", JValue.bool false)]])
    ∧ rlookup (websocket_handler [0]
        ([ActorInput.cmd
            (ObnizCommand.RegisterCallback "io3" (CallbackType.OneShot 0)) true,
          ActorInput.cmd (ObnizCommand.Send "m" (some "io3")) true]
         ++ ([some (JValue.obj [("ad0", JValue.null)])]).map ActorInput.frame
         ++ (ActorInput.frame
              (some (JValue.arr [JValue.obj [("io3", JValue.bool false)]]))
            :: ([] : List (Option JValue)).map ActorInput.frame))).registry
        "io3" = none :=
  C2_oneshot_resolved_with_whole_document [0] "io3" 0 "m" true
    [some (JValue.obj [("ad0", JValue.null)])] []
    (JValue.arr [JValue.obj [("io3", JValue.bool false)]])
    (by decide) (by decide) (by decide)

/-- C5: when every `Obniz` handle is dropped, the command channel closes
(`recv()` yields `None`), the actor loop breaks and drops the registry —
and with it the pending call's `oneshot::Sender` — so a pending
`send_await_response` resolves with the terminal "Failed to receive
response" error (`Disconnected`) instead of staying pending forever. -/
theorem C5_pending_call_disconnects_on_close (oc : List Nat) (k : String)
    (chan : Nat) (msg : String) (wOk : Bool) (pre : List (Option JValue))
    (hpre : ∀ f ∈ pre, frameMatches f k = false) :
    callStatus chan (websocket_handler oc
        ([ActorInput.cmd
            (ObnizCommand.RegisterCallback k (CallbackType.OneShot chan)) true,
          ActorInput.cmd (ObnizCommand.Send msg (some k)) wOk]
         ++ pre.map ActorInput.frame ++ [ActorInput.queueClosed]))
      = CallStatus.disconnected := by
  have hE0 : ∀ e ∈ (if wOk then ([] : List Event)
      else [Event.writeErrorLogged]), resolvesOn chan e = none := by
    cases wOk <;> simp [resolvesOn]
  have hinert : ∀ v, some v ∈ pre →
      handle_incoming_message oc (some v) [(k, CallbackType.OneShot chan)]
        = ([(k, CallbackType.OneShot chan)], []) := by
    intro v hv
    exact handle_single_nomatch oc v k _ (hpre (some v) hv)
  have hcmds : websocket_handler oc
      [ActorInput.cmd
         (ObnizCommand.RegisterCallback k (CallbackType.OneShot chan)) true,
       ActorInput.cmd (ObnizCommand.Send msg (some k)) wOk]
      = ⟨[(k, CallbackType.OneShot chan)],
         if wOk then [] else [Event.writeErrorLogged], false⟩ :=
    run_two_cmds oc k chan msg wOk
  have hrun : websocket_handler oc
      ([ActorInput.cmd
          (ObnizCommand.RegisterCallback k (CallbackType.OneShot chan)) true,
        ActorInput.cmd (ObnizCommand.Send msg (some k)) wOk]
       ++ pre.map ActorInput.frame ++ [ActorInput.queueClosed])
      = ⟨[(k, CallbackType.OneShot chan)],
         (if wOk then [] else [Event.writeErrorLogged]) ++ parseLogs pre,
         true⟩ := by
    rw [websocket_handler_append, websocket_handler_append, hcmds]
    rw [fold_frames_inert oc [(k, CallbackType.OneShot chan)] pre
          (if wOk then [] else [Event.writeErrorLogged]) hinert]
    simp [actorStep]
  refine callStatus_disconnected_of chan _ ?_ ?_
  · rw [hrun]
    refine awaitOutcome_none_of chan _ ?_
    intro e he
    rcases List.mem_append.mp he with he | he
    · exact hE0 e he
    · exact resolvesOn_parseLogs chan pre e he
  · rw [hrun]

theorem C5_witness :
    callStatus 0 (websocket_handler [0]
        ([ActorInput.cmd
            (ObnizCommand.RegisterCallback "io3" (CallbackType.OneShot 0)) true,
          ActorInput.cmd (ObnizCommand.Send "m" (some "io3")) true]
         ++ ([some (JValue.obj [("ad0", JValue.null)]), none]).map
              ActorInput.frame
         ++ [ActorInput.queueClosed]))
      = CallStatus.disconnected :=
  C5_pending_call_disconnects_on_close [0] "io3" 0 "m" true
    [some (JValue.obj [("ad0", JValue.null)]), none] (by decide)

theorem handle_persistent_one (oc : List Nat) (reg : Registry) (k1 : String)
    (hw : Nat) (e : JValue)
    (hl : rlookup reg k1 = some (CallbackType.Persistent hw))
    (hx : extract_callback_key e = some k1) :
    handle_incoming_message oc (some (JValue.arr [e])) reg
      = (reg, [Event.persistentInvoked hw e]) := by
  simp [handle_incoming_message, route_document, route_items,
    route_persistent e reg k1 hw hx hl, resolve_removals]

theorem fold_persistent_frames (oc : List Nat) (reg : Registry) (k1 : String)
    (hw : Nat) (elems : List JValue) :
    ∀ (E : List Event),
    rlookup reg k1 = some (CallbackType.Persistent hw) →
    (∀ e ∈ elems, extract_callback_key e = some k1) →
    List.foldl (actorStep oc) ⟨reg, E, false⟩
        (elems.map (fun e => ActorInput.frame (some (JValue.arr [e]))))
      = ⟨reg, E ++ elems.map (fun e => Event.persistentInvoked hw e),
         false⟩ := by
  induction elems with
  | nil => intro E _ _; simp
  | cons hd tl ih =>
      intro E hl helems
      simp only [List.map_cons, List.foldl_cons]
      have hstep : actorStep oc ⟨reg, E, false⟩
          (ActorInput.frame (some (JValue.arr [hd])))
          = ⟨reg, E ++ [Event.persistentInvoked hw hd], false⟩ := by
        simp [actorStep,
          handle_persistent_one oc reg k1 hw hd hl
            (helems hd (List.mem_cons_self hd tl))]
      rw [hstep,
        ih (E ++ [Event.persistentInvoked hw hd]) hl
          (fun e he => helems e (List.mem_cons_of_mem hd he))]
      simp

/-- C3: with a `Persistent` waiter on `k1` and a `OneShot` waiter on
`k2 ≠ k1`, delivering N frames tagged `k1` and then one tagged `k2` invokes
the `k1` handler exactly N times, each time synchronously with the matched
element (not the whole document), leaves the `k1` entry registered, resolves
the `k2` waiter exactly once, and removes the `k2` entry. -/
theorem C3_persistent_vs_oneshot (oc : List Nat) (k1 k2 : String)
    (hw chan : Nat) (elems : List JValue) (e2 : JValue)
    (hne : k1 ≠ k2)
    (helems : ∀ e ∈ elems, extract_callback_key e = some k1)
    (he2 : extract_callback_key e2 = some k2)
    (hopen : oc.contains chan = true) :
    (websocket_handler oc
        ([ActorInput.cmd
            (ObnizCommand.RegisterCallback k1 (CallbackType.Persistent hw))
            true,
          ActorInput.cmd
            (ObnizCommand.RegisterCallback k2 (CallbackType.OneShot chan))
            true]
         ++ elems.map (fun e => ActorInput.frame (some (JValue.arr [e])))
         ++ [ActorInput.frame (some (JValue.arr [e2]))])).events
      = elems.map (fun e => Event.persistentInvoked hw e)
        ++ [Event.oneShotResolved chan (JValue.arr [e2])]
    ∧ rlookup (websocket_handler oc
        ([ActorInput.cmd
            (ObnizCommand.RegisterCallback k1 (CallbackType.Persistent hw))
            true,
          ActorInput.cmd
            (ObnizCommand.RegisterCallback k2 (CallbackType.OneShot chan))
            true]
         ++ elems.map (fun e => ActorInput.frame (some (JValue.arr [e])))
         ++ [ActorInput.frame (some (JValue.arr [e2]))])).registry k1
        = some (CallbackType.Persistent hw)
    ∧ rlookup (websocket_handler oc
        ([ActorInput.cmd
            (ObnizCommand.RegisterCallback k1 (CallbackType.Persistent hw))
            true,
          ActorInput.cmd
            (ObnizCommand.RegisterCallback k2 (CallbackType.OneShot chan))
            true]
         ++ elems.map (fun e => ActorInput.frame (some (JValue.arr [e])))
         ++ [ActorInput.frame (some (JValue.arr [e2]))])).registry k2
        = none := by
  have hb : (k1 == k2) = false := beq_eq_false_iff_ne.mpr hne
  have hmem : chan ∈ oc := by simpa using hopen
  have hcmds : websocket_handler oc
      [ActorInput.cmd
         (ObnizCommand.RegisterCallback k1 (CallbackType.Persistent hw)) true,
       ActorInput.cmd
         (ObnizCommand.RegisterCallback k2 (CallbackType.OneShot chan)) true]
      = ⟨[(k1, CallbackType.Persistent hw), (k2, CallbackType.OneShot chan)],
         [], false⟩ := by
    simp [websocket_handler, actorStep, rinsert, hb]
  have hl1 : rlookup
      [(k1, CallbackType.Persistent hw), (k2, CallbackType.OneShot chan)] k1
      = some (CallbackType.Persistent hw) := by
    simp [rlookup]
  have hl2 : rlookup
      [(k1, CallbackType.Persistent hw), (k2, CallbackType.OneShot chan)] k2
      = some (CallbackType.OneShot chan) := by
    simp [rlookup, hb]
  have herase : rerase
      [(k1, CallbackType.Persistent hw), (k2, CallbackType.OneShot chan)] k2
      = [(k1, CallbackType.Persistent hw)] := by
    simp [rerase, hb]
  have hlast : handle_incoming_message oc (some (JValue.arr [e2]))
      [(k1, CallbackType.Persistent hw), (k2, CallbackType.OneShot chan)]
      = ([(k1, CallbackType.Persistent hw)],
         [Event.oneShotResolved chan (JValue.arr [e2])]) := by
    have hres : resolve_removals oc (JValue.arr [e2]) [k2]
        [(k1, CallbackType.Persistent hw), (k2, CallbackType.OneShot chan)]
        = ([(k1, CallbackType.Persistent hw)],
           [Event.oneShotResolved chan (JValue.arr [e2])]) := by
      rw [resolve_oneshot_head oc (JValue.arr [e2]) chan k2 []
            [(k1, CallbackType.Persistent hw),
             (k2, CallbackType.OneShot chan)] hl2 (by simp)]
      rw [herase]
      simp [hopen, hmem]
    simp [handle_incoming_message, route_document, route_items,
      route_oneshot e2 _ k2 chan he2 hl2, hres]
  have hrun : websocket_handler oc
      ([ActorInput.cmd
          (ObnizCommand.RegisterCallback k1 (CallbackType.Persistent hw))
          true,
        ActorInput.cmd
          (ObnizCommand.RegisterCallback k2 (CallbackType.OneShot chan))
          true]
       ++ elems.map (fun e => ActorInput.frame (some (JValue.arr [e])))
       ++ [ActorInput.frame (some (JValue.arr [e2]))])
      = ⟨[(k1, CallbackType.Persistent hw)],
         elems.map (fun e => Event.persistentInvoked hw e)
           ++ [Event.oneShotResolved chan (JValue.arr [e2])], false⟩ := by
    rw [websocket_handler_append, websocket_handler_append, hcmds]
    rw [fold_persistent_frames oc _ k1 hw elems [] hl1 helems]
    have hstep : actorStep oc
        ⟨[(k1, CallbackType.Persistent hw),
          (k2, CallbackType.OneShot chan)],
         [] ++ elems.map (fun e => Event.persistentInvoked hw e), false⟩
        (ActorInput.frame (some (JValue.arr [e2])))
        = ⟨[(k1, CallbackType.Persistent hw)],
           ([] ++ elems.map (fun e => Event.persistentInvoked hw e))
             ++ [Event.oneShotResolved chan (JValue.arr [e2])], false⟩ := by
      simp [actorStep, hlast]
    simp only [List.foldl_cons, List.foldl_nil, hstep]
    simp
  refine ⟨?_, ?_, ?_⟩
  · rw [hrun]
  · rw [hrun]
    simp [rlookup]
  · rw [hrun]
    simp [rlookup, hb]

theorem C3_witness :
    (websocket_handler [2]
        ([ActorInput.cmd
            (ObnizCommand.RegisterCallback "switch" (CallbackType.Persistent 1))
            true,
          ActorInput.cmd
            (ObnizCommand.RegisterCallback "io0" (CallbackType.OneShot 2))
            true]
         ++ ([JValue.obj [("switch", JValue.str "push")],
              JValue.obj [("switch", JValue.str "none")]]).map
              (fun e => ActorInput.frame (some (JValue.arr [e])))
         ++ [ActorInput.frame
              (some (JValue.arr [JValue.obj [("io0", JValue.bool false)]]))])).events
      = ([JValue.obj [("switch", JValue.str "push")],
          JValue.obj [("switch", JValue.str "none")]]).map
          (fun e => Event.persistentInvoked 1 e)
        ++ [Event.oneShotResolved 2
             (JValue.arr [JValue.obj [("io0", JValue.bool false)]])]
    ∧ rlookup (websocket_handler [2]
        ([ActorInput.cmd
            (ObnizCommand.RegisterCallback "switch" (CallbackType.Persistent 1))
            true,
          ActorInput.cmd
            (ObnizCommand.RegisterCallback "io0" (CallbackType.OneShot 2))
            true]
         ++ ([JValue.obj [("switch", JValue.str "push")],
              JValue.obj [("switch", JValue.str "none")]]).map
              (fun e => ActorInput.frame (some (JValue.arr [e])))
         ++ [ActorInput.frame
              (some (JValue.arr
                [JValue.obj [("io0", JValue.bool false)]]))])).registry "switch"
        = some (CallbackType.Persistent 1)
    ∧ rlookup (websocket_handler [2]
        ([ActorInput.cmd
            (ObnizCommand.RegisterCallback "switch" (CallbackType.Persistent 1))
            true,
          ActorInput.cmd
            (ObnizCommand.RegisterCallback "io0" (CallbackType.OneShot 2))
            true]
         ++ ([JValue.obj [("switch", JValue.str "push")],
              JValue.obj [("switch", JValue.str "none")]]).map
              (fun e => ActorInput.frame (some (JValue.arr [e])))
         ++ [ActorInput.frame
              (some (JValue.arr
                [JValue.obj [("io0", JValue.bool false)]]))])).registry "io0"
        = none :=
  C3_persistent_vs_oneshot [2] "switch" "io0" 1 2
    [JValue.obj [("switch", JValue.str "push")],
     JValue.obj [("switch", JValue.str "none")]]
    (JValue.obj [("io0", JValue.bool false)])
    (by decide)
    (by intro e he
        simp only [List.mem_cons, List.not_mem_nil, or_false] at he
        rcases he with he | he <;> subst he <;> rfl)
    (by rfl) (by decide)

theorem resolve_nodup (oc : List Nat) (v : JValue) (ks : List String) :
    ∀ reg, KeysNodup reg → KeysNodup (resolve_removals oc v ks reg).1 := by
  induction ks with
  | nil => intro reg h; exact h
  | cons hd tl ih =>
      intro reg h
      unfold resolve_removals
      cases hl : rlookup reg hd with
      | none => exact ih reg h
      | some cb =>
          cases cb with
          | OneShot chan =>
              simp only []
              exact ih (rerase reg hd) (rerase_nodup reg hd h)
          | Persistent f => exact ih (rerase reg hd) (rerase_nodup reg hd h)

theorem handle_nodup (oc : List Nat) (f : Option JValue) (reg : Registry)
    (h : KeysNodup reg) : KeysNodup (handle_incoming_message oc f reg).1 := by
  cases f with
  | none => exact h
  | some v =>
      unfold handle_incoming_message
      simp only []
      exact resolve_nodup oc v (route_document v reg).1 reg h

theorem actorStep_nodup (oc : List Nat) (st : ActorState) (i : ActorInput)
    (h : KeysNodup st.registry) : KeysNodup (actorStep oc st i).registry := by
  cases hterm : st.terminated with
  | true => simpa [actorStep, hterm] using h
  | false =>
      cases i with
      | cmd c wOk =>
          cases c with
          | Send m rk => simpa [actorStep, hterm] using h
          | RegisterCallback k cb =>
              simpa [actorStep, hterm] using
                rinsert_nodup st.registry k cb h
          | UnregisterCallback k =>
              simpa [actorStep, hterm] using rerase_nodup st.registry k h
      | queueClosed => simpa [actorStep, hterm] using h
      | frame f =>
          simpa [actorStep, hterm] using
            handle_nodup oc f st.registry h
      | wsReadError => simpa [actorStep, hterm] using h
      | streamEnd => simpa [actorStep, hterm] using h

theorem run_nodup (oc : List Nat) (ins : List ActorInput) :
    ∀ st : ActorState, KeysNodup st.registry →
      KeysNodup (List.foldl (actorStep oc) st ins).registry := by
  induction ins with
  | nil => intro st h; exact h
  | cons i tl ih =>
      intro st h
      simp only [List.foldl_cons]
      exact ih (actorStep oc st i) (actorStep_nodup oc st i h)

/-- C4: in every reachable registry state each key has at most one waiter
(the key list of the registry has no duplicates); a `RegisterCallback` for an
already-registered key replaces the old waiter; and a frame delivered
afterwards invokes only the new waiter. -/
theorem C4_at_most_one_waiter_replacement (oc : List Nat)
    (ins : List ActorInput) :
    KeysNodup (websocket_handler oc ins).registry
    ∧ (∀ (reg : Registry) (k : String) (cb : CallbackType),
        rlookup (rinsert reg k cb) k = some cb)
    ∧ (∀ (reg : Registry) (k : String) (h2 : Nat) (e : JValue),
        extract_callback_key e = some k →
        handle_incoming_message oc (some (JValue.arr [e]))
            (rinsert reg k (CallbackType.Persistent h2))
          = (rinsert reg k (CallbackType.Persistent h2),
             [Event.persistentInvoked h2 e])) := by
  refine ⟨?_, rlookup_rinsert_self, ?_⟩
  · exact run_nodup oc ins ⟨[], [], false⟩ List.nodup_nil
  · intro reg k h2 e hx
    exact handle_persistent_one oc (rinsert reg k (CallbackType.Persistent h2))
      k h2 e (rlookup_rinsert_self reg k (CallbackType.Persistent h2)) hx

theorem C4_witness :
    KeysNodup (websocket_handler [0]
        [ActorInput.cmd
           (ObnizCommand.RegisterCallback "io0" (CallbackType.OneShot 5)) true,
         ActorInput.cmd
           (ObnizCommand.RegisterCallback "io0" (CallbackType.Persistent 7))
           true]).registry
    ∧ rlookup (rinsert [("io0", CallbackType.OneShot 5)] "io0"
        (CallbackType.Persistent 7)) "io0" = some (CallbackType.Persistent 7)
    ∧ handle_incoming_message [0]
        (some (JValue.arr [JValue.obj [("io0", JValue.bool true)]]))
        (rinsert [("io0", CallbackType.OneShot 5)] "io0"
          (CallbackType.Persistent 7))
      = (rinsert [("io0", CallbackType.OneShot 5)] "io0"
          (CallbackType.Persistent 7),
         [Event.persistentInvoked 7 (JValue.obj [("io0", JValue.bool true)])]) :=
  ⟨(C4_at_most_one_waiter_replacement [0] _).1,
   (C4_at_most_one_waiter_replacement [0] []).2.1
     [("io0", CallbackType.OneShot 5)] "io0" (CallbackType.Persistent 7),
   (C4_at_most_one_waiter_replacement [0] []).2.2
     [("io0", CallbackType.OneShot 5)] "io0" 7
     (JValue.obj [("io0", JValue.bool true)]) (by rfl)⟩

theorem actorStep_bad_frame (oc : List Nat) (st : ActorState) :
    actorStep oc st (ActorInput.frame none)
      = ⟨st.registry,
         st.events
           ++ (if st.terminated then [] else [Event.parseErrorLogged]),
         st.terminated⟩ := by
  obtain ⟨r, E, t⟩ := st
  cases t with
  | true => simp [actorStep]
  | false => simp [actorStep, handle_incoming_message]

theorem foldl_actorStep_split_state (oc : List Nat) (ins : List ActorInput)
    (st : ActorState) :
    List.foldl (actorStep oc) st ins
      = ⟨(List.foldl (actorStep oc)
            ⟨st.registry, [], st.terminated⟩ ins).registry,
         st.events ++ (List.foldl (actorStep oc)
            ⟨st.registry, [], st.terminated⟩ ins).events,
         (List.foldl (actorStep oc)
            ⟨st.registry, [], st.terminated⟩ ins).terminated⟩ :=
  foldl_actorStep_split oc ins st.registry st.events st.terminated

/-- C6: a malformed inbound frame (whose text/JSON parsing fails) is logged
and dropped: it leaves the registry and the termination flag exactly as a
run without it, contributes only the parse-failure log to the trace, and
routing of all other frames in the trace is unaffected. -/
theorem C6_malformed_frame_logged_dropped (oc : List Nat)
    (ins1 ins2 : List ActorInput) :
    (websocket_handler oc (ins1 ++ ActorInput.frame none :: ins2)).registry
      = (websocket_handler oc (ins1 ++ ins2)).registry
    ∧ (websocket_handler oc
        (ins1 ++ ActorInput.frame none :: ins2)).terminated
      = (websocket_handler oc (ins1 ++ ins2)).terminated
    ∧ (websocket_handler oc
        (ins1 ++ ActorInput.frame none :: ins2)).events.filter notParseLog
      = (websocket_handler oc (ins1 ++ ins2)).events.filter notParseLog
    ∧ (websocket_handler oc (ins1 ++ [ActorInput.frame none])).events
      = (websocket_handler oc ins1).events
        ++ (if (websocket_handler oc ins1).terminated then []
            else [Event.parseErrorLogged]) := by
  have hbad := actorStep_bad_frame oc (websocket_handler oc ins1)
  have hwith : websocket_handler oc (ins1 ++ ActorInput.frame none :: ins2)
      = ⟨(List.foldl (actorStep oc)
            ⟨(websocket_handler oc ins1).registry, [],
             (websocket_handler oc ins1).terminated⟩ ins2).registry,
         ((websocket_handler oc ins1).events
           ++ (if (websocket_handler oc ins1).terminated then []
               else [Event.parseErrorLogged]))
           ++ (List.foldl (actorStep oc)
                ⟨(websocket_handler oc ins1).registry, [],
                 (websocket_handler oc ins1).terminated⟩ ins2).events,
         (List.foldl (actorStep oc)
            ⟨(websocket_handler oc ins1).registry, [],
             (websocket_handler oc ins1).terminated⟩ ins2).terminated⟩ := by
    rw [websocket_handler_append, List.foldl_cons, hbad,
      foldl_actorStep_split]
  have hclean : websocket_handler oc (ins1 ++ ins2)
      = ⟨(List.foldl (actorStep oc)
            ⟨(websocket_handler oc ins1).registry, [],
             (websocket_handler oc ins1).terminated⟩ ins2).registry,
         (websocket_handler oc ins1).events
           ++ (List.foldl (actorStep oc)
                ⟨(websocket_handler oc ins1).registry, [],
                 (websocket_handler oc ins1).terminated⟩ ins2).events,
         (List.foldl (actorStep oc)
            ⟨(websocket_handler oc ins1).registry, [],
             (websocket_handler oc ins1).terminated⟩ ins2).terminated⟩ := by
    rw [websocket_handler_append, foldl_actorStep_split_state]
  refine ⟨?_, ?_, ?_, ?_⟩
  · rw [hwith, hclean]
  · rw [hwith, hclean]
  · rw [hwith, hclean]
    simp only [List.filter_append]
    cases hterm : (websocket_handler oc ins1).terminated <;>
      simp [notParseLog]
  · rw [websocket_handler_append]
    simp only [List.foldl_cons, List.foldl_nil]
    rw [hbad]

/-- C7: the actor's loop exits exactly when the read stream signals
end-of-stream or the command channel closes (all senders dropped); a failed
write of a `Send` command is only logged and never terminates the loop. -/
theorem C7_termination_conditions (oc : List Nat) (ins : List ActorInput) :
    (websocket_handler oc ins).terminated = ins.any isCloseInput
    ∧ ∀ (r : Registry) (E : List Event) (m : String) (rk : Option String),
        actorStep oc ⟨r, E, false⟩
            (ActorInput.cmd (ObnizCommand.Send m rk) false)
          = ⟨r, E ++ [Event.writeErrorLogged], false⟩ := by
  have hfold : ∀ (l : List ActorInput) (st : ActorState),
      (List.foldl (actorStep oc) st l).terminated
        = (st.terminated || l.any isCloseInput) := by
    intro l
    induction l with
    | nil => intro st; simp
    | cons i tl ih =>
        intro st
        simp only [List.foldl_cons, List.any_cons]
        rw [ih]
        have hstep : (actorStep oc st i).terminated
            = (st.terminated || isCloseInput i) := by
          cases hterm : st.terminated with
          | true => simp [actorStep, hterm]
          | false =>
              cases i with
              | cmd c wOk =>
                  cases c <;> cases wOk <;> simp [actorStep, hterm, isCloseInput]
              | queueClosed => simp [actorStep, hterm, isCloseInput]
              | frame f => simp [actorStep, hterm, isCloseInput]
              | wsReadError => simp [actorStep, hterm, isCloseInput]
              | streamEnd => simp [actorStep, hterm, isCloseInput]
        rw [hstep, Bool.or_assoc]
  refine ⟨?_, ?_⟩
  · have := hfold ins ⟨[], [], false⟩
    simpa [websocket_handler] using this
  · intro r E m rk
    simp [actorStep]

/-- C8: `send_await_response` enqueues the `RegisterCallback` for its
`OneShot` waiter strictly before the `Send` command on the single ordered
command queue, so by the time the actor has consumed both commands — before
it can process the matching inbound frame — the waiter is registered. -/
theorem C8_registration_enqueued_before_send (oc : List Nat) (msg : String)
    (chan : Nat) (key : String) (r : Registry) (E : List Event) (wOk : Bool) :
    (send_await_response_commands msg chan key)[0]?
      = some (ObnizCommand.RegisterCallback key (CallbackType.OneShot chan))
    ∧ (send_await_response_commands msg chan key)[1]?
      = some (ObnizCommand.Send msg (some key))
    ∧ rlookup (List.foldl (actorStep oc) ⟨r, E, false⟩
        ((send_await_response_commands msg chan key).map
          (fun c => ActorInput.cmd c wOk))).registry key
      = some (CallbackType.OneShot chan) := by
  refine ⟨rfl, rfl, ?_⟩
  cases wOk <;>
    simp [send_await_response_commands, actorStep, rlookup_rinsert_self]

theorem route_items_all_oneshot (reg : Registry) (k : String) (chan : Nat)
    (hl : rlookup reg k = some (CallbackType.OneShot chan)) :
    ∀ elems : List JValue,
    (∀ e ∈ elems, extract_callback_key e = some k) →
    route_items reg elems = (List.replicate elems.length k, []) := by
  intro elems
  induction elems with
  | nil => intro _; rfl
  | cons hd tl ih =>
      intro helems
      simp [route_items,
        route_oneshot hd reg k chan (helems hd (List.mem_cons_self hd tl)) hl,
        ih (fun e he => helems e (List.mem_cons_of_mem hd he)),
        List.replicate_succ]

/-- C9: a document whose elements all extract to the same key resolves the
`OneShot` waiter on that key exactly once: the first marked occurrence
removes the entry and sends the whole document; every further occurrence of
the key finds no entry and is a silent no-op (no second resolution event,
no panic). -/
theorem C9_duplicate_keys_resolve_once (oc : List Nat) (reg : Registry)
    (k : String) (chan : Nat) (elems : List JValue)
    (hnd : KeysNodup reg)
    (hl : rlookup reg k = some (CallbackType.OneShot chan))
    (hopen : oc.contains chan = true)
    (hne : elems ≠ [])
    (helems : ∀ e ∈ elems, extract_callback_key e = some k) :
    handle_incoming_message oc (some (JValue.arr elems)) reg
      = (rerase reg k, [Event.oneShotResolved chan (JValue.arr elems)])
    ∧ rlookup (rerase reg k) k = none := by
  obtain ⟨hd, tl, rfl⟩ := List.exists_cons_of_ne_nil hne
  have hroute := route_items_all_oneshot reg k chan hl (hd :: tl) helems
  have herased : rlookup (rerase reg k) k = none :=
    rlookup_rerase_self reg k hnd
  have hres : resolve_removals oc (JValue.arr (hd :: tl))
      (List.replicate (tl.length + 1) k) reg
      = (rerase reg k,
         [Event.oneShotResolved chan (JValue.arr (hd :: tl))]) := by
    simp only [List.replicate_succ]
    rw [resolve_oneshot_head oc _ chan k _ reg hl ?_]
    · rw [if_pos hopen]
    · intro x hx
      have hxk : x = k := List.eq_of_mem_replicate hx
      subst hxk
      exact herased
  refine ⟨?_, herased⟩
  simp [handle_incoming_message, route_document, hroute, hres,
    List.length_cons]

theorem C9_witness :
    handle_incoming_message [4]
        (some (JValue.arr [JValue.obj [("io2", JValue.bool true)],
                           JValue.obj [("io2", JValue.bool false)]]))
        [("io2", CallbackType.OneShot 4)]
      = (rerase [("io2", CallbackType.OneShot 4)] "io2",
         [Event.oneShotResolved 4
           (JValue.arr [JValue.obj [("io2", JValue.bool true)],
                        JValue.obj [("io2", JValue.bool false)]])])
    ∧ rlookup (rerase [("io2", CallbackType.OneShot 4)] "io2") "io2"
        = none :=
  C9_duplicate_keys_resolve_once [4] [("io2", CallbackType.OneShot 4)]
    "io2" 4
    [JValue.obj [("io2", JValue.bool true)],
     JValue.obj [("io2", JValue.bool false)]]
    (by simp [KeysNodup]) (by rfl) (by decide) (List.cons_ne_nil _ _)
    (by intro e he
        simp only [List.mem_cons, List.not_mem_nil, or_false] at he
        rcases he with he | he <;> subst he <;> rfl)

/-- C10: dropping a pending `send_await_response` future does not enqueue
any `UnregisterCallback`: the stale `OneShot` entry stays registered until a
matching frame arrives; at that point `Sender::send` fails because the
receiver is gone, the failure is only logged, the entry is removed anyway,
and entries for every other key are untouched. -/
theorem C10_stale_oneshot_removed_on_match (oc : List Nat) (reg : Registry)
    (k : String) (chan : Nat) (e : JValue) (k2 : String) (msg : String)
    (chan2 : Nat) (rkey : String)
    (hl : rlookup reg k = some (CallbackType.OneShot chan))
    (hclosed : oc.contains chan = false)
    (hx : extract_callback_key e = some k)
    (hne : k2 ≠ k) :
    (∀ c ∈ send_await_response_commands msg chan2 rkey,
        ∀ kk, c ≠ ObnizCommand.UnregisterCallback kk)
    ∧ handle_incoming_message oc (some (JValue.arr [e])) reg
        = (rerase reg k, [Event.oneShotSendFailed chan k])
    ∧ rlookup (rerase reg k) k2 = rlookup reg k2 := by
  refine ⟨?_, ?_, rlookup_rerase_ne reg k k2 hne⟩
  · intro c hc kk
    simp only [send_await_response_commands, List.mem_cons,
      List.not_mem_nil, or_false] at hc
    rcases hc with hc | hc <;> subst hc <;> intro hcc <;> cases hcc
  · have hroute := route_items_all_oneshot reg k chan hl [e]
      (by intro x hxx
          simp only [List.mem_singleton] at hxx
          subst hxx
          exact hx)
    have hres : resolve_removals oc (JValue.arr [e]) [k] reg
        = (rerase reg k, [Event.oneShotSendFailed chan k]) := by
      rw [resolve_oneshot_head oc _ chan k [] reg hl (by simp)]
      rw [if_neg (by rw [hclosed]; simp)]
    simp [handle_incoming_message, route_document, hroute, hres,
      List.replicate_one]

theorem C10_witness :
    (∀ c ∈ send_await_response_commands "m" 9 "pwm0",
        ∀ kk, c ≠ ObnizCommand.UnregisterCallback kk)
    ∧ handle_incoming_message []
        (some (JValue.arr [JValue.obj [("uart1", JValue.null)]]))
        [("uart1", CallbackType.OneShot 3),
         ("switch", CallbackType.Persistent 8)]
      = (rerase [("uart1", CallbackType.OneShot 3),
                 ("switch", CallbackType.Persistent 8)] "uart1",
         [Event.oneShotSendFailed 3 "uart1"])
    ∧ rlookup (rerase [("uart1", CallbackType.OneShot 3),
                       ("switch", CallbackType.Persistent 8)] "uart1")
        "switch"
      = rlookup [("uart1", CallbackType.OneShot 3),
                 ("switch", CallbackType.Persistent 8)] "switch" :=
  C10_stale_oneshot_removed_on_match []
    [("uart1", CallbackType.OneShot 3), ("switch", CallbackType.Persistent 8)]
    "uart1" 3 (JValue.obj [("uart1", JValue.null)]) "switch" "m" 9 "pwm0"
    (by rfl) (by decide) (by rfl) (by decide)
